import Mathlib

/-!
Verification development for the POLS price-monitoring robot.

The definitions below are a shallow embedding of the Python sources:
`exchange_base.py` (PriceInfo), `kucoin_exchange.py` (order-book quoting),
`pancakeswap_exchange.py` (pool quoting), `telegram_notifier.py`
(arbitrage gains and the significant-arbitrage alert check) and
`trading_strategy.py` (the momentum exit strategy).  Machine floats are
modelled as rationals; Python exceptions are modelled with `Except` /
explicit outcome constructors.
-/

namespace PolsRobot

/-- `PriceInfo` dataclass from `exchange_base.py` (the `timestamp` string is
presentation-only and omitted). -/
structure PriceInfo where
  current_price : ℚ
  buy_price : ℚ
  sell_price : ℚ
  buy_cost : ℚ
  sell_revenue : ℚ
deriving DecidableEq, Repr

/-! ### Order-book quoting (`kucoin_exchange.py`, `get_price_info`) -/

/-- The ask/bid walking loop of `KucoinExchange.get_price_info`
(lines 48-60 and 69-81): walk the levels, accumulating `price * qty`
until `remaining` is exhausted; returns the accumulated total and the
remaining unfilled quantity.  A level is a `(price, quantity)` pair. -/
def fill_walk : ℚ → List (ℚ × ℚ) → ℚ × ℚ
  | remaining, [] => (0, remaining)
  | remaining, (price, qty) :: rest =>
    if remaining ≤ 0 then (0, remaining)
    else if qty ≤ remaining then
      ((fill_walk (remaining - qty) rest).1 + price * qty,
       (fill_walk (remaining - qty) rest).2)
    else (price * remaining, 0)

/-- Total visible depth of one side of the book: the sum of level quantities. -/
def book_depth (levels : List (ℚ × ℚ)) : ℚ := (levels.map Prod.snd).sum

/-- The greedy consumption of levels performed by the walking loop, as the
list of `(price, quantity consumed)` pairs actually eaten. -/
def consumed_levels : ℚ → List (ℚ × ℚ) → List (ℚ × ℚ)
  | _, [] => []
  | remaining, (price, qty) :: rest =>
    if remaining ≤ 0 then []
    else if qty ≤ remaining then (price, qty) :: consumed_levels (remaining - qty) rest
    else [(price, remaining)]

/-- Failure modes of `KucoinExchange.get_price_info`: the two
"Pas assez de liquidite" raises (insufficient ask / bid liquidity), the
IndexError on `asks[0][0]` for an empty ask list, and the
ZeroDivisionError of `total / pols_quantity` for a zero quantity. -/
inductive QuoteError
  | insufficientAskLiquidity
  | insufficientBidLiquidity
  | indexError
  | zeroDivision
deriving DecidableEq, Repr

/-- `KucoinExchange.get_price_info` (lines 35-101): walk asks for the buy
side, raise if unfilled; walk bids for the sell side, raise if unfilled;
spot price is the best ask; average prices divide total by the quantity. -/
def kucoin_get_price_info (size : ℚ) (asks bids : List (ℚ × ℚ)) :
    Except QuoteError PriceInfo :=
  if 0 < (fill_walk size asks).2 then .error .insufficientAskLiquidity
  else if 0 < (fill_walk size bids).2 then .error .insufficientBidLiquidity
  else
    match asks with
    | [] => .error .indexError
    | (best_ask, _) :: _ =>
      if size = 0 then .error .zeroDivision
      else .ok { current_price := best_ask,
                 buy_price := (fill_walk size asks).1 / size,
                 sell_price := (fill_walk size bids).1 / size,
                 buy_cost := (fill_walk size asks).1,
                 sell_revenue := (fill_walk size bids).1 }

/-! ### Pool quoting (`pancakeswap_exchange.py`, `get_price_info`) -/

/-- `PancakeSwapExchange.get_price_info` (lines 117-148): `amount_out` is
`float(amounts[1])`, the router's quoted output in wei for swapping
`size` tokens; the mid price divides it by `size * 1e18`, and fixed
±0.1% slippage margins give the buy/sell prices.  The configured
quantity is positive in the program (enforced by `/set_quantity`). -/
def pancake_get_price_info (size amount_out : ℚ) : PriceInfo :=
  { current_price := amount_out / (size * 10 ^ 18),
    buy_price := amount_out / (size * 10 ^ 18) * (1001 / 1000),
    sell_price := amount_out / (size * 10 ^ 18) * (999 / 1000),
    buy_cost := amount_out / (size * 10 ^ 18) * (1001 / 1000) * size,
    sell_revenue := amount_out / (size * 10 ^ 18) * (999 / 1000) * size }

/-! ### Arbitrage evaluation (`telegram_notifier.py`, `_calculate_arbitrage_gains`) -/

/-- `KUCOIN_FEE = 0.001` (line 394). -/
def KUCOIN_FEE : ℚ := 1 / 1000

/-- `PANCAKESWAP_FEE = 0.0025` (line 395). -/
def PANCAKESWAP_FEE : ℚ := 1 / 400

/-- One direction of the returned gains dictionary (its numeric fields). -/
structure DirectionGains where
  profit : ℚ
  profit_percentage : ℚ
deriving DecidableEq, Repr

/-- The two directions of the gains dictionary returned by
`_calculate_arbitrage_gains`. -/
structure ArbitrageGains where
  kucoin_to_pancakeswap : DirectionGains
  pancakeswap_to_kucoin : DirectionGains
deriving DecidableEq, Repr

/-- Line 404: `pancakeswap_sell_revenue - kucoin_buy_cost - kucoin_fee -
pancakeswap_fee` with `kucoin_fee = kucoin_buy_cost * KUCOIN_FEE` and
`pancakeswap_fee = pancakeswap_sell_revenue * PANCAKESWAP_FEE`. -/
def kucoin_to_pancakeswap_profit (kucoin_info pancakeswap_info : PriceInfo) : ℚ :=
  pancakeswap_info.sell_revenue - kucoin_info.buy_cost
    - kucoin_info.buy_cost * KUCOIN_FEE
    - pancakeswap_info.sell_revenue * PANCAKESWAP_FEE

/-- Line 413: the mirror direction. -/
def pancakeswap_to_kucoin_profit (kucoin_info pancakeswap_info : PriceInfo) : ℚ :=
  kucoin_info.sell_revenue - pancakeswap_info.buy_cost
    - pancakeswap_info.buy_cost * PANCAKESWAP_FEE
    - kucoin_info.sell_revenue * KUCOIN_FEE

/-- The numeric fields of the dictionary built at lines 423-446:
each direction's `profit_percentage` is `(profit / buy_cost) * 100`,
dividing by the gross buy cost of the buy leg. -/
def arbitrage_gains_value (kucoin_info pancakeswap_info : PriceInfo) : ArbitrageGains :=
  { kucoin_to_pancakeswap :=
      { profit := kucoin_to_pancakeswap_profit kucoin_info pancakeswap_info,
        profit_percentage :=
          kucoin_to_pancakeswap_profit kucoin_info pancakeswap_info
            / kucoin_info.buy_cost * 100 },
    pancakeswap_to_kucoin :=
      { profit := pancakeswap_to_kucoin_profit kucoin_info pancakeswap_info,
        profit_percentage :=
          pancakeswap_to_kucoin_profit kucoin_info pancakeswap_info
            / pancakeswap_info.buy_cost * 100 } }

/-- Failure modes of the evaluator.  `zeroDivision` models Python's
ZeroDivisionError, raised by the `(profit / buy_cost)` divisions
themselves.  `degenerateInput` is modelled from the spec: the error
taxonomy of spec section 7 requires a distinct `DegenerateInput` failure
raised before any division; the code never produces it, the constructor
exists only so that statements can compare the two behaviours. -/
inductive EvalError
  | zeroDivision
  | degenerateInput
deriving DecidableEq, Repr

/-- `_calculate_arbitrage_gains` (lines 388-446) viewed as a fallible
computation of the dictionary's numeric fields: the percentage divisions
raise ZeroDivisionError when the corresponding gross buy cost is zero
(the kucoin-direction entry is built first), otherwise the dictionary is
returned.  (The embedded alert check called at line 416 swallows its own
errors and is modelled separately by `check_significant_arbitrage`.) -/
def calculate_arbitrage_gains (kucoin_info pancakeswap_info : PriceInfo) :
    Except EvalError ArbitrageGains :=
  if kucoin_info.buy_cost = 0 then .error .zeroDivision
  else if pancakeswap_info.buy_cost = 0 then .error .zeroDivision
  else .ok (arbitrage_gains_value kucoin_info pancakeswap_info)

/-- Observable outcome of `_check_significant_arbitrage` (lines 448-501):
either one alert message (with a section per qualifying direction), no
alert, or an exception caught by its own `except` handler and merely
logged (as happens for a zero buy cost). -/
inductive AlertOutcome
  | alert (includesKucoinToPancake includesPancakeToKucoin : Bool)
  | noAlert
  | errorLogged
deriving DecidableEq, Repr

/-- Whether an outcome is an alert. -/
def AlertOutcome.isAlert : AlertOutcome → Bool
  | .alert _ _ => true
  | _ => false

/-- `_check_significant_arbitrage` (lines 448-501): compute each
direction's percentage as `(profit / buy_cost) * 100`; if either
strictly exceeds the threshold, send a single message containing a
section for each direction that strictly exceeds it; otherwise no alert.
A ZeroDivisionError from a zero cost is caught and logged. -/
def check_significant_arbitrage
    (kucoin_to_pancake_profit pancake_to_kucoin_profit
     kucoin_buy_cost pancake_buy_cost threshold : ℚ) : AlertOutcome :=
  if kucoin_buy_cost = 0 ∨ pancake_buy_cost = 0 then .errorLogged
  else
    if threshold < kucoin_to_pancake_profit / kucoin_buy_cost * 100
        ∨ threshold < pancake_to_kucoin_profit / pancake_buy_cost * 100 then
      .alert (decide (threshold < kucoin_to_pancake_profit / kucoin_buy_cost * 100))
             (decide (threshold < pancake_to_kucoin_profit / pancake_buy_cost * 100))
    else .noAlert

/-! ### Momentum exit strategy (`trading_strategy.py`) -/

/-- `MA_PERIODS = 10` (line 28). -/
def MA_PERIODS : ℕ := 10

/-- `PRICE_INCREASE_THRESHOLD = 0.10` (line 30). -/
def PRICE_INCREASE_THRESHOLD : ℚ := 1 / 10

/-- `DROP_THRESHOLD = 0.02` (line 31). -/
def DROP_THRESHOLD : ℚ := 1 / 50

/-- `LIMIT_ORDER_OFFSET = 0.01` (line 32). -/
def LIMIT_ORDER_OFFSET : ℚ := 1 / 100

/-- `ORDER_SIZE = 10` (line 33). -/
def ORDER_SIZE : ℚ := 10

/-- History capacity: "Garder uniquement les 100 derniers prix" (line 53). -/
def HISTORY_CAP : ℕ := 100

/-- Mutable strategy state of `TradingStrategy` (timestamps in the history
are irrelevant to every property and omitted; newest price last). -/
structure StrategyState where
  priceHistory : List ℚ
  isMonitoring : Bool
  highestPrice : Option ℚ
deriving DecidableEq, Repr

/-- `TradingStrategy.__init__` (lines 36-38): empty history, not
monitoring, no peak. -/
def strategy_init : StrategyState :=
  { priceHistory := [], isMonitoring := false, highestPrice := none }

/-- Truncation at line 53-54: keep only the last `n` prices when the
history exceeds `n` entries. -/
def keep_last (n : ℕ) (l : List ℚ) : List ℚ :=
  if n < l.length then l.drop (l.length - n) else l

/-- The last `n` entries of a list (all of it when shorter). -/
def last_n (n : ℕ) (l : List ℚ) : List ℚ := l.drop (l.length - n)

/-- `calculate_ma` (lines 62-74): `None` when the history is shorter than
`MA_PERIODS`, otherwise the rolling mean over the most recent
`MA_PERIODS` entries. -/
def calculate_ma (history : List ℚ) : Option ℚ :=
  if history.length < MA_PERIODS then none
  else some ((last_n MA_PERIODS history).sum / (MA_PERIODS : ℚ))

/-- Outcome of the price fetch in `update_price_history`: a price, or an
adapter exception (caught there, returning `None`). -/
inductive FetchResult
  | ok (price : ℚ)
  | err
deriving DecidableEq, Repr

/-- Outcome of `self.kucoin.get_balance()` during a tick: the free POLS
balance, or an adapter exception. -/
inductive BalanceResult
  | ok (pols_free : ℚ)
  | err
deriving DecidableEq, Repr

/-- Outcome of `self.kucoin.create_limit_order(...)`: a truthy order
dictionary, a falsy response, or an exception. -/
inductive OrderResult
  | ok
  | falsy
  | err
deriving DecidableEq, Repr

/-- The adapter responses a single `check_and_update` tick can consume. -/
structure TickEnv where
  fetch : FetchResult
  balance : BalanceResult
  order : OrderResult
deriving DecidableEq, Repr

/-- The history append + truncation of `update_price_history` (lines 47-54). -/
def push_price (p : ℚ) (s : StrategyState) : StrategyState :=
  { s with priceHistory := keep_last HISTORY_CAP (s.priceHistory ++ [p]) }

/-- The `except` handler of `check_and_update` (lines 145-148): the error
is logged and the handler sets `is_monitoring = False` and
`highest_price = None`. -/
def reset_monitoring (s : StrategyState) : StrategyState :=
  { s with isMonitoring := false, highestPrice := none }

/-- The peak ratchet (lines 104-105): the peak becomes the current price
exactly when the current price strictly exceeds it. -/
def ratchet (h0 p : ℚ) : ℚ := if h0 < p then p else h0

/-- The not-monitoring branch of `check_and_update` (lines 84-100): with
enough history, compare the current price against the moving average; a
zero average makes the `(current_price - ma) / ma` division raise, which
the outer handler turns into a monitoring reset. -/
def idle_branch (p : ℚ) (s1 : StrategyState) : StrategyState :=
  match calculate_ma s1.priceHistory with
  | none => s1
  | some ma =>
    if ma = 0 then reset_monitoring s1
    else if PRICE_INCREASE_THRESHOLD < (p - ma) / ma then
      { s1 with isMonitoring := true, highestPrice := some p }
    else s1

/-- The monitoring branch of `check_and_update` (lines 103-143): ratchet
the peak, compute the drop, and on a sufficient drop check the balance
and place the limit order.  A zero peak makes the drop division raise; a
balance or order exception reaches the outer handler (the price already
appended to the history stays appended); a falsy order result only logs;
a truthy order resets monitoring (lines 137-139).  The second component
records the `create_limit_order` dispatch `(price, size)` when the call
is made. -/
def monitoring_branch (env : TickEnv) (p h0 : ℚ) (s1 : StrategyState) :
    StrategyState × Option (ℚ × ℚ) :=
  if ratchet h0 p = 0 then (reset_monitoring s1, none)
  else if DROP_THRESHOLD ≤ (ratchet h0 p - p) / ratchet h0 p then
    match env.balance with
    | .err => (reset_monitoring s1, none)
    | .ok free =>
      if ORDER_SIZE ≤ free then
        match env.order with
        | .err => (reset_monitoring s1, some (p * (1 - LIMIT_ORDER_OFFSET), ORDER_SIZE))
        | .falsy => ({ s1 with highestPrice := some (ratchet h0 p) },
                     some (p * (1 - LIMIT_ORDER_OFFSET), ORDER_SIZE))
        | .ok => (reset_monitoring s1, some (p * (1 - LIMIT_ORDER_OFFSET), ORDER_SIZE))
      else ({ s1 with highestPrice := some (ratchet h0 p) }, none)
  else ({ s1 with highestPrice := some (ratchet h0 p) }, none)

/-- `check_and_update` (lines 76-148), one tick: a failed price fetch is
caught inside `update_price_history` and the tick returns with the state
untouched; otherwise the price is appended and the idle or monitoring
branch runs.  A `None` peak while monitoring would make the
`current_price > self.highest_price` comparison raise a TypeError,
handled by the outer reset.  Returns the new state and the limit-order
dispatch, if any. -/
def check_and_update (env : TickEnv) (s : StrategyState) :
    StrategyState × Option (ℚ × ℚ) :=
  match env.fetch with
  | .err => (s, none)
  | .ok p =>
    if s.isMonitoring then
      match s.highestPrice with
      | none => (reset_monitoring (push_price p s), none)
      | some h0 => monitoring_branch env p h0 (push_price p s)
    else (idle_branch p (push_price p s), none)

/-- The prices observed by the strategy since monitoring was armed:
empty while idle; the arming tick contributes the arming price; each
further monitored tick appends its fetched price. -/
def tick_obs (env : TickEnv) (s : StrategyState) (obs : List ℚ) : List ℚ :=
  if (check_and_update env s).1.isMonitoring then
    match env.fetch with
    | .err => obs
    | .ok p => if s.isMonitoring then obs ++ [p] else [p]
  else []

/-- One step of a run: advance the state by a tick and the observed-price
list alongside it. -/
def run_step (acc : StrategyState × List ℚ) (env : TickEnv) :
    StrategyState × List ℚ :=
  ((check_and_update env acc.1).1, tick_obs env acc.1 acc.2)

/-- Run the strategy from initialization through a sequence of ticks,
tracking the prices observed since monitoring was last armed. -/
def run_with_obs (envs : List TickEnv) : StrategyState × List ℚ :=
  envs.foldl run_step (strategy_init, [])

/-- The strategy invariant: the peak is present exactly while monitoring,
and dominates every price observed since monitoring was armed. -/
def StrategyInv (s : StrategyState) (obs : List ℚ) : Prop :=
  s.highestPrice.isSome = s.isMonitoring ∧
  ∀ h, s.highestPrice = some h → ∀ p ∈ obs, p ≤ h

/-- Modelled from the claim's words: the moving average actually used by
the arming check, over the window of `MA_PERIODS` entries whose most
recent element is the current price. -/
def window_ma_with_current (hist : List ℚ) (p : ℚ) : ℚ :=
  ((last_n (MA_PERIODS - 1) hist).sum + p) / (MA_PERIODS : ℚ)

/-- Modelled from the claim's words: the average of only the prior prices
of the window, i.e. the window's entries other than the current price. -/
def window_ma_prior (hist : List ℚ) : ℚ :=
  (last_n (MA_PERIODS - 1) hist).sum / ((MA_PERIODS : ℚ) - 1)

/-- A concrete run: nine ticks at price 1, then one at price 6/5, which
exceeds the ten-entry moving average 51/50 by more than 10% and arms
monitoring. -/
def scenario_envs : List TickEnv :=
  [⟨.ok 1, .err, .err⟩, ⟨.ok 1, .err, .err⟩, ⟨.ok 1, .err, .err⟩,
   ⟨.ok 1, .err, .err⟩, ⟨.ok 1, .err, .err⟩, ⟨.ok 1, .err, .err⟩,
   ⟨.ok 1, .err, .err⟩, ⟨.ok 1, .err, .err⟩, ⟨.ok 1, .err, .err⟩,
   ⟨.ok (6 / 5), .err, .err⟩]

/-! ## Order-book walking lemmas -/

theorem book_depth_nonneg (levels : List (ℚ × ℚ)) (h : ∀ l ∈ levels, 0 ≤ l.2) :
    0 ≤ book_depth levels := by
  apply List.sum_nonneg
  intro x hx
  obtain ⟨l, hl, rfl⟩ := List.mem_map.mp hx
  exact h l hl

theorem fill_walk_remaining (levels : List (ℚ × ℚ)) :
    ∀ r : ℚ, (∀ l ∈ levels, 0 ≤ l.2) → 0 ≤ r →
    (fill_walk r levels).2 = max (r - book_depth levels) 0 := by
  induction levels with
  | nil =>
    intro r _ hr
    simp only [fill_walk, book_depth, List.map_nil, List.sum_nil, sub_zero]
    exact (max_eq_left hr).symm
  | cons lvl rest ih =>
    intro r hq hr
    obtain ⟨price, qty⟩ := lvl
    have hqty : 0 ≤ qty := hq (price, qty) (List.mem_cons_self _ _)
    have hrest : ∀ l ∈ rest, 0 ≤ l.2 := fun l hl => hq l (List.mem_cons_of_mem _ hl)
    have hdep : 0 ≤ book_depth rest := book_depth_nonneg rest hrest
    have hbd : book_depth ((price, qty) :: rest) = qty + book_depth rest := by
      simp [book_depth]
    rw [hbd]
    by_cases h0 : r ≤ 0
    · have hr0 : r = 0 := le_antisymm h0 hr
      subst hr0
      simp only [fill_walk, le_refl, if_pos]
      rw [eq_comm, max_eq_right]
      linarith
    · push_neg at h0
      by_cases hle : qty ≤ r
      · simp only [fill_walk, if_neg (not_le.mpr h0), if_pos hle]
        rw [ih (r - qty) hrest (by linarith)]
        congr 1
        ring
      · simp only [fill_walk, if_neg (not_le.mpr h0), if_neg hle]
        rw [eq_comm, max_eq_right]
        push_neg at hle
        linarith

theorem fill_walk_cost_consumed (levels : List (ℚ × ℚ)) :
    ∀ r : ℚ, (fill_walk r levels).1
      = ((consumed_levels r levels).map fun l => l.1 * l.2).sum := by
  induction levels with
  | nil => intro r; simp [fill_walk, consumed_levels]
  | cons lvl rest ih =>
    intro r
    obtain ⟨price, qty⟩ := lvl
    by_cases h0 : r ≤ 0
    · simp [fill_walk, consumed_levels, h0]
    · by_cases hle : qty ≤ r
      · simp only [fill_walk, consumed_levels, if_neg h0, if_pos hle,
          List.map_cons, List.sum_cons, ih]
        ring
      · simp [fill_walk, consumed_levels, h0, hle]

theorem consumed_qty_sum (levels : List (ℚ × ℚ)) :
    ∀ r : ℚ, ((consumed_levels r levels).map Prod.snd).sum
      = r - (fill_walk r levels).2 := by
  induction levels with
  | nil => intro r; simp [consumed_levels, fill_walk]
  | cons lvl rest ih =>
    intro r
    obtain ⟨price, qty⟩ := lvl
    by_cases h0 : r ≤ 0
    · simp [consumed_levels, fill_walk, h0]
    · by_cases hle : qty ≤ r
      · simp only [consumed_levels, fill_walk, if_neg h0, if_pos hle,
          List.map_cons, List.sum_cons, ih]
        ring
      · simp [consumed_levels, fill_walk, h0, hle]

theorem fill_walk_cost_lower (levels : List (ℚ × ℚ)) (m : ℚ) :
    ∀ r : ℚ, (∀ l ∈ levels, m ≤ l.1) → (∀ l ∈ levels, 0 ≤ l.2) → 0 ≤ r →
    m * (r - (fill_walk r levels).2) ≤ (fill_walk r levels).1 := by
  induction levels with
  | nil => intro r _ _ _; simp [fill_walk]
  | cons lvl rest ih =>
    intro r hp hq hr
    obtain ⟨price, qty⟩ := lvl
    have hpr : m ≤ price := hp _ (List.mem_cons_self _ _)
    have hqty : 0 ≤ qty := hq _ (List.mem_cons_self _ _)
    have hprest : ∀ l ∈ rest, m ≤ l.1 := fun l hl => hp l (List.mem_cons_of_mem _ hl)
    have hqrest : ∀ l ∈ rest, 0 ≤ l.2 := fun l hl => hq l (List.mem_cons_of_mem _ hl)
    by_cases h0 : r ≤ 0
    · simp [fill_walk, h0]
    · push_neg at h0
      by_cases hle : qty ≤ r
      · simp only [fill_walk, if_neg (not_le.mpr h0), if_pos hle]
        have hih := ih (r - qty) hprest hqrest (by linarith)
        have hmq : m * qty ≤ price * qty := mul_le_mul_of_nonneg_right hpr hqty
        have hexp : m * (r - (fill_walk (r - qty) rest).2)
            = m * qty + m * ((r - qty) - (fill_walk (r - qty) rest).2) := by ring
        linarith
      · simp only [fill_walk, if_neg (not_le.mpr h0), if_neg hle, sub_zero]
        exact mul_le_mul_of_nonneg_right hpr h0.le

theorem fill_walk_cost_upper (levels : List (ℚ × ℚ)) (M : ℚ) :
    ∀ r : ℚ, (∀ l ∈ levels, l.1 ≤ M) → (∀ l ∈ levels, 0 ≤ l.2) → 0 ≤ r →
    (fill_walk r levels).1 ≤ M * (r - (fill_walk r levels).2) := by
  induction levels with
  | nil => intro r _ _ _; simp [fill_walk]
  | cons lvl rest ih =>
    intro r hp hq hr
    obtain ⟨price, qty⟩ := lvl
    have hpr : price ≤ M := hp _ (List.mem_cons_self _ _)
    have hqty : 0 ≤ qty := hq _ (List.mem_cons_self _ _)
    have hprest : ∀ l ∈ rest, l.1 ≤ M := fun l hl => hp l (List.mem_cons_of_mem _ hl)
    have hqrest : ∀ l ∈ rest, 0 ≤ l.2 := fun l hl => hq l (List.mem_cons_of_mem _ hl)
    by_cases h0 : r ≤ 0
    · simp [fill_walk, h0]
    · push_neg at h0
      by_cases hle : qty ≤ r
      · simp only [fill_walk, if_neg (not_le.mpr h0), if_pos hle]
        have hih := ih (r - qty) hprest hqrest (by linarith)
        have hmq : price * qty ≤ M * qty := mul_le_mul_of_nonneg_right hpr hqty
        have hexp : M * (r - (fill_walk (r - qty) rest).2)
            = M * qty + M * ((r - qty) - (fill_walk (r - qty) rest).2) := by ring
        linarith
      · simp only [fill_walk, if_neg (not_le.mpr h0), if_neg hle, sub_zero]
        exact mul_le_mul_of_nonneg_right hpr h0.le

theorem fill_walk_filled (side : List (ℚ × ℚ)) (size : ℚ)
    (hq : ∀ l ∈ side, 0 ≤ l.2) (hs : 0 ≤ size) (hd : size ≤ book_depth side) :
    (fill_walk size side).2 = 0 := by
  rw [fill_walk_remaining side size hq hs, max_eq_right]
  linarith

theorem kucoin_success (size : ℚ) (asks bids : List (ℚ × ℚ))
    (hsize : 0 < size)
    (hA : ∀ l ∈ asks, 0 ≤ l.2) (hB : ∀ l ∈ bids, 0 ≤ l.2)
    (hda : size ≤ book_depth asks) (hdb : size ≤ book_depth bids) :
    ∃ a qa asksT, asks = (a, qa) :: asksT ∧
      kucoin_get_price_info size asks bids
        = Except.ok { current_price := a,
                      buy_price := (fill_walk size asks).1 / size,
                      sell_price := (fill_walk size bids).1 / size,
                      buy_cost := (fill_walk size asks).1,
                      sell_revenue := (fill_walk size bids).1 } := by
  have hra : (fill_walk size asks).2 = 0 := fill_walk_filled asks size hA hsize.le hda
  have hrb : (fill_walk size bids).2 = 0 := fill_walk_filled bids size hB hsize.le hdb
  cases asks with
  | nil =>
    exfalso
    simp only [book_depth, List.map_nil, List.sum_nil] at hda
    linarith
  | cons a asksT =>
    obtain ⟨ap, aq⟩ := a
    refine ⟨ap, aq, asksT, rfl, ?_⟩
    simp [kucoin_get_price_info, hra, hrb, hsize.ne']

/-! ## Arbitrage evaluator claims -/

/-- C1 fails as stated: at a concrete pair of quotes the evaluator's
`profit_percentage` differs from `profit / (buy_cost + buy_cost * fee_a) * 100`;
the code divides by the gross buy cost alone. -/
theorem C1_counterexample :
    calculate_arbitrage_gains ⟨1, 1, 1, 1000, 900⟩ ⟨1, 1, 1, 1000, 1100⟩
      = Except.ok (arbitrage_gains_value ⟨1, 1, 1, 1000, 900⟩ ⟨1, 1, 1, 1000, 1100⟩) ∧
    (arbitrage_gains_value ⟨1, 1, 1, 1000, 900⟩
        ⟨1, 1, 1, 1000, 1100⟩).kucoin_to_pancakeswap.profit_percentage
      ≠ (arbitrage_gains_value ⟨1, 1, 1, 1000, 900⟩
          ⟨1, 1, 1, 1000, 1100⟩).kucoin_to_pancakeswap.profit
          / ((1000 : ℚ) + 1000 * KUCOIN_FEE) * 100 := by
  refine ⟨by norm_num [calculate_arbitrage_gains], ?_⟩
  norm_num [arbitrage_gains_value, kucoin_to_pancakeswap_profit, KUCOIN_FEE, PANCAKESWAP_FEE]

/-- C1 (corrected): for every pair of quotes with nonzero gross buy costs,
each direction's profit is `sell_revenue - sell_revenue * fee_sell -
buy_cost - buy_cost * fee_buy` as the claim states, but the percentage is
`profit / buy_cost * 100`: the denominator is the gross buy cost alone,
not the fee-inclusive capital. -/
theorem C1_amended (kucoin_info pancakeswap_info : PriceInfo)
    (hk : kucoin_info.buy_cost ≠ 0) (hp : pancakeswap_info.buy_cost ≠ 0) :
    calculate_arbitrage_gains kucoin_info pancakeswap_info
      = Except.ok (arbitrage_gains_value kucoin_info pancakeswap_info) ∧
    (arbitrage_gains_value kucoin_info pancakeswap_info).kucoin_to_pancakeswap.profit
      = pancakeswap_info.sell_revenue - pancakeswap_info.sell_revenue * PANCAKESWAP_FEE
        - kucoin_info.buy_cost - kucoin_info.buy_cost * KUCOIN_FEE ∧
    (arbitrage_gains_value kucoin_info pancakeswap_info).pancakeswap_to_kucoin.profit
      = kucoin_info.sell_revenue - kucoin_info.sell_revenue * KUCOIN_FEE
        - pancakeswap_info.buy_cost - pancakeswap_info.buy_cost * PANCAKESWAP_FEE ∧
    (arbitrage_gains_value kucoin_info
        pancakeswap_info).kucoin_to_pancakeswap.profit_percentage
      = (arbitrage_gains_value kucoin_info
          pancakeswap_info).kucoin_to_pancakeswap.profit / kucoin_info.buy_cost * 100 ∧
    (arbitrage_gains_value kucoin_info
        pancakeswap_info).pancakeswap_to_kucoin.profit_percentage
      = (arbitrage_gains_value kucoin_info
          pancakeswap_info).pancakeswap_to_kucoin.profit
          / pancakeswap_info.buy_cost * 100 := by
  refine ⟨?_, ?_, ?_, rfl, rfl⟩
  · simp [calculate_arbitrage_gains, hk, hp]
  · simp only [arbitrage_gains_value, kucoin_to_pancakeswap_profit]
    ring
  · simp only [arbitrage_gains_value, pancakeswap_to_kucoin_profit]
    ring

/-- C1 witness: the corrected statement evaluated at a concrete pair of
quotes. -/
theorem C1_witness :
    calculate_arbitrage_gains ⟨1, 1, 1, 2000, 900⟩ ⟨1, 1, 1, 500, 1100⟩
      = Except.ok (arbitrage_gains_value ⟨1, 1, 1, 2000, 900⟩ ⟨1, 1, 1, 500, 1100⟩) ∧
    (arbitrage_gains_value ⟨1, 1, 1, 2000, 900⟩
        ⟨1, 1, 1, 500, 1100⟩).kucoin_to_pancakeswap.profit_percentage
      = (arbitrage_gains_value ⟨1, 1, 1, 2000, 900⟩
          ⟨1, 1, 1, 500, 1100⟩).kucoin_to_pancakeswap.profit / 2000 * 100 :=
  ⟨(C1_amended ⟨1, 1, 1, 2000, 900⟩ ⟨1, 1, 1, 500, 1100⟩ (by norm_num) (by norm_num)).1,
   (C1_amended ⟨1, 1, 1, 2000, 900⟩ ⟨1, 1, 1, 500, 1100⟩ (by norm_num) (by norm_num)).2.2.2.1⟩

/-- C2: with nonzero gross buy costs, the significance gate alerts exactly
when one of the two directions' percentages strictly exceeds the
threshold; percentages exactly equal to the threshold give no alert; and
when both directions qualify they are included in one single alert. -/
theorem C2 (kProfit pProfit kCost pCost threshold : ℚ)
    (hk : kCost ≠ 0) (hp : pCost ≠ 0) :
    ((check_significant_arbitrage kProfit pProfit kCost pCost threshold).isAlert = true
       ↔ threshold < kProfit / kCost * 100 ∨ threshold < pProfit / pCost * 100) ∧
    (kProfit / kCost * 100 = threshold → pProfit / pCost * 100 = threshold →
       check_significant_arbitrage kProfit pProfit kCost pCost threshold
         = AlertOutcome.noAlert) ∧
    (threshold < kProfit / kCost * 100 → threshold < pProfit / pCost * 100 →
       check_significant_arbitrage kProfit pProfit kCost pCost threshold
         = AlertOutcome.alert true true) := by
  have hor : ¬(kCost = 0 ∨ pCost = 0) := by
    rintro (h | h)
    exacts [hk h, hp h]
  refine ⟨?_, ?_, ?_⟩
  · by_cases hcond : threshold < kProfit / kCost * 100 ∨ threshold < pProfit / pCost * 100
    · simp [check_significant_arbitrage, hor, hcond, AlertOutcome.isAlert]
    · simp [check_significant_arbitrage, hor, hcond, AlertOutcome.isAlert]
  · intro h1 h2
    have hcond : ¬(threshold < kProfit / kCost * 100 ∨ threshold < pProfit / pCost * 100) := by
      rw [h1, h2]
      simp
    simp [check_significant_arbitrage, hor, hcond]
  · intro h1 h2
    simp [check_significant_arbitrage, hor, h1, h2]

/-- C2 witness: concrete gate evaluations through the theorem. -/
theorem C2_witness :
    check_significant_arbitrage 6 (-1) 1000 1000 (1 / 2) = AlertOutcome.alert true false ∧
    check_significant_arbitrage 5 5 1000 1000 (1 / 2) = AlertOutcome.noAlert ∧
    check_significant_arbitrage 6 7 1000 1000 (1 / 2) = AlertOutcome.alert true true :=
  ⟨by norm_num [check_significant_arbitrage],
   (C2 5 5 1000 1000 (1 / 2) (by norm_num) (by norm_num)).2.1 (by norm_num) (by norm_num),
   (C2 6 7 1000 1000 (1 / 2) (by norm_num) (by norm_num)).2.2 (by norm_num) (by norm_num)⟩

/-- C5 fails as stated: at a zero buy-leg cost basis the evaluator does
not fail with the spec's `DegenerateInput`; it performs the division,
which raises ZeroDivisionError in the gains computation, and the alert
check merely catches and logs its own division error. -/
theorem C5_counterexample :
    calculate_arbitrage_gains ⟨1, 1, 1, 0, 900⟩ ⟨1, 1, 1, 1000, 1100⟩
      ≠ Except.error EvalError.degenerateInput ∧
    calculate_arbitrage_gains ⟨1, 1, 1, 0, 900⟩ ⟨1, 1, 1, 1000, 1100⟩
      = Except.error EvalError.zeroDivision ∧
    check_significant_arbitrage 1 1 0 1000 (1 / 2) = AlertOutcome.errorLogged := by
  refine ⟨?_, by norm_num [calculate_arbitrage_gains],
    by norm_num [check_significant_arbitrage]⟩
  norm_num [calculate_arbitrage_gains]
  decide

/-- C5 (corrected): when the buy-leg cost basis `buy_cost + buy_cost * fee`
is zero, no `DegenerateInput` guard fires; the evaluator performs the
division: the gains computation fails with ZeroDivisionError and the
alert check swallows its own ZeroDivisionError, producing no alert. -/
theorem C5_amended (kucoin_info pancakeswap_info : PriceInfo)
    (h : kucoin_info.buy_cost + kucoin_info.buy_cost * KUCOIN_FEE = 0) :
    calculate_arbitrage_gains kucoin_info pancakeswap_info
      = Except.error EvalError.zeroDivision ∧
    ∀ a b c t, check_significant_arbitrage a b kucoin_info.buy_cost c t
      = AlertOutcome.errorLogged := by
  have h1 : kucoin_info.buy_cost * (1 + KUCOIN_FEE) = 0 := by linear_combination h
  have hz : kucoin_info.buy_cost = 0 := by
    rcases mul_eq_zero.mp h1 with h2 | h2
    · exact h2
    · exfalso
      rw [KUCOIN_FEE] at h2
      norm_num at h2
  refine ⟨?_, ?_⟩
  · simp [calculate_arbitrage_gains, hz]
  · intro a b c t
    simp [check_significant_arbitrage, hz]

/-- C5 witness: the corrected statement evaluated at a zero buy cost. -/
theorem C5_witness :
    calculate_arbitrage_gains ⟨1, 1, 1, 0, 900⟩ ⟨1, 1, 1, 500, 1100⟩
      = Except.error EvalError.zeroDivision ∧
    check_significant_arbitrage 3 4 0 500 (1 / 2) = AlertOutcome.errorLogged :=
  ⟨(C5_amended ⟨1, 1, 1, 0, 900⟩ ⟨1, 1, 1, 500, 1100⟩ (by norm_num)).1,
   (C5_amended ⟨1, 1, 1, 0, 900⟩ ⟨1, 1, 1, 500, 1100⟩ (by norm_num)).2 3 4 500 (1 / 2)⟩

/-! ## Order-book venue claims -/

/-- C4: for a positive trade size and an order book with nonnegative level
quantities, the order-book quote fails with the insufficient-liquidity
error whenever the total visible ask (or bid) depth is strictly below the
trade size, and with sufficient depth on both sides it returns a quote
whose buy and sell prices are the cost-weighted averages of the levels
the walk consumes (the consumed quantities summing to exactly the trade
size, never a partial fill). -/
theorem C4 (size : ℚ) (asks bids : List (ℚ × ℚ)) (hsize : 0 < size)
    (hA : ∀ l ∈ asks, 0 ≤ l.2) (hB : ∀ l ∈ bids, 0 ≤ l.2) :
    (book_depth asks < size →
       kucoin_get_price_info size asks bids
         = Except.error QuoteError.insufficientAskLiquidity) ∧
    (size ≤ book_depth asks → book_depth bids < size →
       kucoin_get_price_info size asks bids
         = Except.error QuoteError.insufficientBidLiquidity) ∧
    (size ≤ book_depth asks → size ≤ book_depth bids →
       ∃ q, kucoin_get_price_info size asks bids = Except.ok q ∧
         q.buy_price * size = ((consumed_levels size asks).map fun l => l.1 * l.2).sum ∧
         ((consumed_levels size asks).map Prod.snd).sum = size ∧
         q.sell_price * size = ((consumed_levels size bids).map fun l => l.1 * l.2).sum ∧
         ((consumed_levels size bids).map Prod.snd).sum = size) := by
  refine ⟨?_, ?_, ?_⟩
  · intro hd
    have hpos : 0 < (fill_walk size asks).2 := by
      rw [fill_walk_remaining asks size hA hsize.le, max_eq_left (by linarith)]
      linarith
    simp [kucoin_get_price_info, hpos]
  · intro hda hd
    have hra : (fill_walk size asks).2 = 0 := fill_walk_filled asks size hA hsize.le hda
    have hpos : 0 < (fill_walk size bids).2 := by
      rw [fill_walk_remaining bids size hB hsize.le, max_eq_left (by linarith)]
      linarith
    simp [kucoin_get_price_info, hra, hpos]
  · intro hda hdb
    obtain ⟨a, qa, asksT, hasks, heq⟩ := kucoin_success size asks bids hsize hA hB hda hdb
    have hra : (fill_walk size asks).2 = 0 := fill_walk_filled asks size hA hsize.le hda
    have hrb : (fill_walk size bids).2 = 0 := fill_walk_filled bids size hB hsize.le hdb
    refine ⟨_, heq, ?_, ?_, ?_, ?_⟩
    · show (fill_walk size asks).1 / size * size = _
      rw [div_mul_cancel₀ _ hsize.ne', fill_walk_cost_consumed]
    · rw [consumed_qty_sum, hra, sub_zero]
    · show (fill_walk size bids).1 / size * size = _
      rw [div_mul_cancel₀ _ hsize.ne', fill_walk_cost_consumed]
    · rw [consumed_qty_sum, hrb, sub_zero]

/-- C4 witness: a concrete book with enough depth on both sides. -/
theorem C4_witness :
    ∃ q, kucoin_get_price_info 10 [(1, 5), (2, 10)] [(9 / 10, 20)] = Except.ok q ∧
      q.buy_price * 10 = ((consumed_levels 10 [(1, 5), (2, 10)]).map fun l => l.1 * l.2).sum ∧
      ((consumed_levels 10 [(1, 5), (2, 10)]).map Prod.snd).sum = 10 ∧
      q.sell_price * 10 = ((consumed_levels 10 [(9 / 10, 20)]).map fun l => l.1 * l.2).sum ∧
      ((consumed_levels 10 [(9 / 10, 20)]).map Prod.snd).sum = 10 :=
  (C4 10 [(1, 5), (2, 10)] [(9 / 10, 20)] (by norm_num) (by norm_num) (by norm_num)).2.2
    (by norm_num [book_depth]) (by norm_num [book_depth])

/-- C9: a quote produced by the order-book venue from a non-degenerate
book (nonnegative quantities, each side sorted best-first, best ask above
best bid) satisfies `sell_price <= spot <= buy_price` with
`buy_cost = buy_price * size` and `sell_revenue = sell_price * size`; and
the pool venue's quote from a positive mid price satisfies the same. -/
theorem C9 :
    (∀ (size ap aq bp bq : ℚ) (asksT bidsT : List (ℚ × ℚ)) (q : PriceInfo),
       0 < size →
       (∀ l ∈ (ap, aq) :: asksT, 0 ≤ l.2) →
       (∀ l ∈ (bp, bq) :: bidsT, 0 ≤ l.2) →
       List.Sorted (· ≤ ·) (((ap, aq) :: asksT).map Prod.fst) →
       List.Sorted (· ≥ ·) (((bp, bq) :: bidsT).map Prod.fst) →
       bp < ap →
       kucoin_get_price_info size ((ap, aq) :: asksT) ((bp, bq) :: bidsT)
         = Except.ok q →
       q.sell_price ≤ q.current_price ∧ q.current_price ≤ q.buy_price ∧
       q.buy_cost = q.buy_price * size ∧ q.sell_revenue = q.sell_price * size) ∧
    (∀ size amount_out : ℚ, 0 < size → 0 < amount_out →
       (pancake_get_price_info size amount_out).sell_price
         ≤ (pancake_get_price_info size amount_out).current_price ∧
       (pancake_get_price_info size amount_out).current_price
         ≤ (pancake_get_price_info size amount_out).buy_price ∧
       (pancake_get_price_info size amount_out).buy_cost
         = (pancake_get_price_info size amount_out).buy_price * size ∧
       (pancake_get_price_info size amount_out).sell_revenue
         = (pancake_get_price_info size amount_out).sell_price * size) := by
  constructor
  · intro size ap aq bp bq asksT bidsT q hsize hA hB hsA hsB hab hok
    rw [List.map_cons] at hsA hsB
    have hallA : ∀ l ∈ (ap, aq) :: asksT, ap ≤ l.1 := by
      rintro ⟨x, y⟩ hmem
      rcases List.mem_cons.mp hmem with hhd | htl
      · rw [Prod.mk.injEq] at hhd
        rw [hhd.1]
      · have hx : x ∈ asksT.map Prod.fst := List.mem_map_of_mem Prod.fst htl
        exact (List.sorted_cons.mp hsA).1 x hx
    have hallB : ∀ l ∈ (bp, bq) :: bidsT, l.1 ≤ bp := by
      rintro ⟨x, y⟩ hmem
      rcases List.mem_cons.mp hmem with hhd | htl
      · rw [Prod.mk.injEq] at hhd
        rw [hhd.1]
      · have hx : x ∈ bidsT.map Prod.fst := List.mem_map_of_mem Prod.fst htl
        exact (List.sorted_cons.mp hsB).1 x hx
    by_cases h1 : 0 < (fill_walk size ((ap, aq) :: asksT)).2
    · rw [kucoin_get_price_info, if_pos h1] at hok
      exact absurd hok (by simp)
    by_cases h2 : 0 < (fill_walk size ((bp, bq) :: bidsT)).2
    · rw [kucoin_get_price_info, if_neg h1, if_pos h2] at hok
      exact absurd hok (by simp)
    have hra : (fill_walk size ((ap, aq) :: asksT)).2 = 0 := by
      have hge : 0 ≤ (fill_walk size ((ap, aq) :: asksT)).2 := by
        rw [fill_walk_remaining _ size hA hsize.le]
        exact le_max_right _ _
      linarith [not_lt.mp h1]
    have hrb : (fill_walk size ((bp, bq) :: bidsT)).2 = 0 := by
      have hge : 0 ≤ (fill_walk size ((bp, bq) :: bidsT)).2 := by
        rw [fill_walk_remaining _ size hB hsize.le]
        exact le_max_right _ _
      linarith [not_lt.mp h2]
    rw [kucoin_get_price_info, if_neg h1, if_neg h2] at hok
    rw [if_neg hsize.ne'] at hok
    have hq : q = { current_price := ap,
                    buy_price := (fill_walk size ((ap, aq) :: asksT)).1 / size,
                    sell_price := (fill_walk size ((bp, bq) :: bidsT)).1 / size,
                    buy_cost := (fill_walk size ((ap, aq) :: asksT)).1,
                    sell_revenue := (fill_walk size ((bp, bq) :: bidsT)).1 } := by
      cases hok
      rfl
    subst hq
    have hlow := fill_walk_cost_lower ((ap, aq) :: asksT) ap size hallA hA hsize.le
    have hupp := fill_walk_cost_upper ((bp, bq) :: bidsT) bp size hallB hB hsize.le
    rw [hra, sub_zero] at hlow
    rw [hrb, sub_zero] at hupp
    refine ⟨?_, ?_, ?_, ?_⟩
    · show (fill_walk size ((bp, bq) :: bidsT)).1 / size ≤ ap
      have hb : (fill_walk size ((bp, bq) :: bidsT)).1 / size ≤ bp :=
        (div_le_iff₀ hsize).mpr (by linarith)
      linarith
    · show ap ≤ (fill_walk size ((ap, aq) :: asksT)).1 / size
      exact (le_div_iff₀ hsize).mpr (by linarith)
    · exact (div_mul_cancel₀ _ hsize.ne').symm
    · exact (div_mul_cancel₀ _ hsize.ne').symm
  · intro size amount_out hs ha
    have hc : 0 < amount_out / (size * 10 ^ 18) := div_pos ha (by positivity)
    refine ⟨?_, ?_, rfl, rfl⟩
    · show amount_out / (size * 10 ^ 18) * (999 / 1000) ≤ amount_out / (size * 10 ^ 18)
      nlinarith
    · show amount_out / (size * 10 ^ 18) ≤ amount_out / (size * 10 ^ 18) * (1001 / 1000)
      nlinarith

/-- C9 witness: the two venue statements evaluated at concrete inputs. -/
theorem C9_witness :
    (((⟨1, 3 / 2, 9 / 10, 15, 9⟩ : PriceInfo).sell_price
        ≤ (⟨1, 3 / 2, 9 / 10, 15, 9⟩ : PriceInfo).current_price) ∧
     ((⟨1, 3 / 2, 9 / 10, 15, 9⟩ : PriceInfo).current_price
        ≤ (⟨1, 3 / 2, 9 / 10, 15, 9⟩ : PriceInfo).buy_price) ∧
     (⟨1, 3 / 2, 9 / 10, 15, 9⟩ : PriceInfo).buy_cost
        = (⟨1, 3 / 2, 9 / 10, 15, 9⟩ : PriceInfo).buy_price * 10 ∧
     (⟨1, 3 / 2, 9 / 10, 15, 9⟩ : PriceInfo).sell_revenue
        = (⟨1, 3 / 2, 9 / 10, 15, 9⟩ : PriceInfo).sell_price * 10) ∧
    ((pancake_get_price_info 1000 (2 * 10 ^ 21)).sell_price
       ≤ (pancake_get_price_info 1000 (2 * 10 ^ 21)).current_price) :=
  ⟨C9.1 10 1 5 (9 / 10) 20 [(2, 10)] [] ⟨1, 3 / 2, 9 / 10, 15, 9⟩
     (by norm_num) (by norm_num) (by norm_num)
     (by norm_num [List.sorted_cons]) (by norm_num [List.sorted_cons]) (by norm_num)
     (by norm_num [kucoin_get_price_info, fill_walk]),
   (C9.2 1000 (2 * 10 ^ 21) (by norm_num) (by norm_num)).1⟩

/-! ## Momentum exit strategy lemmas -/

theorem le_ratchet_left (h0 p : ℚ) : h0 ≤ ratchet h0 p := by
  rw [ratchet]
  split_ifs with h
  · exact h.le
  · exact le_refl h0

theorem le_ratchet_right (h0 p : ℚ) : p ≤ ratchet h0 p := by
  rw [ratchet]
  split_ifs with h
  · exact le_refl p
  · exact not_lt.mp h

theorem push_price_isMonitoring (p : ℚ) (s : StrategyState) :
    (push_price p s).isMonitoring = s.isMonitoring := rfl

theorem push_price_highestPrice (p : ℚ) (s : StrategyState) :
    (push_price p s).highestPrice = s.highestPrice := rfl

theorem monitoring_branch_cases (env : TickEnv) (p h0 : ℚ) (s1 : StrategyState) :
    (monitoring_branch env p h0 s1).1 = reset_monitoring s1 ∨
    (monitoring_branch env p h0 s1).1
      = { s1 with highestPrice := some (ratchet h0 p) } := by
  rw [monitoring_branch]
  by_cases hz : ratchet h0 p = 0
  · rw [if_pos hz]
    exact Or.inl rfl
  rw [if_neg hz]
  by_cases hd : DROP_THRESHOLD ≤ (ratchet h0 p - p) / ratchet h0 p
  · rw [if_pos hd]
    cases env.balance with
    | err => exact Or.inl rfl
    | ok free =>
      dsimp only
      by_cases hfree : ORDER_SIZE ≤ free
      · rw [if_pos hfree]
        cases env.order with
        | ok => exact Or.inl rfl
        | falsy => exact Or.inr rfl
        | err => exact Or.inl rfl
      · rw [if_neg hfree]
        exact Or.inr rfl
  · rw [if_neg hd]
    exact Or.inr rfl

theorem monitoring_branch_dispatch (env : TickEnv) (p h0 : ℚ) (s1 : StrategyState)
    (hne : (monitoring_branch env p h0 s1).2 ≠ none) :
    ∃ free, env.balance = BalanceResult.ok free ∧ ORDER_SIZE ≤ free := by
  rw [monitoring_branch] at hne
  by_cases hz : ratchet h0 p = 0
  · rw [if_pos hz] at hne
    exact absurd rfl hne
  rw [if_neg hz] at hne
  by_cases hd : DROP_THRESHOLD ≤ (ratchet h0 p - p) / ratchet h0 p
  · rw [if_pos hd] at hne
    cases hb : env.balance with
    | err =>
      rw [hb] at hne
      exact absurd rfl hne
    | ok free =>
      rw [hb] at hne
      dsimp only at hne
      by_cases hfree : ORDER_SIZE ≤ free
      · exact ⟨free, rfl, hfree⟩
      · rw [if_neg hfree] at hne
        exact absurd rfl hne
  · rw [if_neg hd] at hne
    exact absurd rfl hne

theorem idle_branch_cases (p : ℚ) (s1 : StrategyState) :
    idle_branch p s1 = s1 ∨ idle_branch p s1 = reset_monitoring s1 ∨
    idle_branch p s1 = { s1 with isMonitoring := true, highestPrice := some p } := by
  rw [idle_branch]
  cases calculate_ma s1.priceHistory with
  | none => exact Or.inl rfl
  | some ma =>
    dsimp only
    by_cases hz : ma = 0
    · rw [if_pos hz]
      exact Or.inr (Or.inl rfl)
    · rw [if_neg hz]
      by_cases hc : PRICE_INCREASE_THRESHOLD < (p - ma) / ma
      · rw [if_pos hc]
        exact Or.inr (Or.inr rfl)
      · rw [if_neg hc]
        exact Or.inl rfl

/-! ## Strategy tick claims -/

/-- C3 fails as stated: a concrete monitoring tick in which the balance
fetch raises leaves the state changed — the fetched price stays appended
to the history and the exception handler resets `is_monitoring` and
`highest_price`. -/
theorem C3_counterexample :
    check_and_update ⟨FetchResult.ok 90, BalanceResult.err, OrderResult.ok⟩
        ⟨[], true, some 100⟩
      = (⟨[90], false, none⟩, none) ∧
    (⟨[90], false, none⟩ : StrategyState) ≠ ⟨[], true, some 100⟩ := by
  constructor
  · norm_num [check_and_update, monitoring_branch, push_price, keep_last, ratchet,
      reset_monitoring, DROP_THRESHOLD, HISTORY_CAP]
  · simp

/-- C3 (corrected): an error in the price fetch does leave the whole
state untouched, but an adapter error later in the tick (here: the
balance fetch raising while monitoring, after a qualifying drop) does
not: the appended price stays in the history and the handler resets
`is_monitoring` to false and `highest_price` to none. -/
theorem C3_amended (env : TickEnv) (s : StrategyState) :
    (env.fetch = FetchResult.err → check_and_update env s = (s, none)) ∧
    (∀ p h0, env.fetch = FetchResult.ok p → s.isMonitoring = true →
       s.highestPrice = some h0 → ratchet h0 p ≠ 0 →
       DROP_THRESHOLD ≤ (ratchet h0 p - p) / ratchet h0 p →
       env.balance = BalanceResult.err →
       check_and_update env s
         = ({ priceHistory := keep_last HISTORY_CAP (s.priceHistory ++ [p]),
              isMonitoring := false, highestPrice := none }, none)) := by
  constructor
  · intro hf
    simp [check_and_update, hf]
  · intro p h0 hf hm ho hz hd hb
    simp [check_and_update, hf, hm, ho, monitoring_branch, hz, hd, hb,
      reset_monitoring, push_price]

/-- C3 witness: the corrected statement evaluated on a concrete tick. -/
theorem C3_witness :
    check_and_update ⟨FetchResult.ok 95, BalanceResult.err, OrderResult.ok⟩
        ⟨[], true, some 100⟩
      = ({ priceHistory := keep_last HISTORY_CAP ([] ++ [95]),
           isMonitoring := false, highestPrice := none }, none) :=
  (C3_amended ⟨FetchResult.ok 95, BalanceResult.err, OrderResult.ok⟩
      ⟨[], true, some 100⟩).2 95 100 rfl rfl rfl
    (by norm_num [ratchet]) (by norm_num [ratchet, DROP_THRESHOLD]) rfl

/-- C6 fails as stated: a successfully placed order is not the only event
that resets `highest_price` and returns the strategy to Idle — on a
concrete monitoring tick whose balance fetch raises, the state is reset
with no order dispatched at all. -/
theorem C6_counterexample :
    check_and_update ⟨FetchResult.ok 150, BalanceResult.err, OrderResult.ok⟩
        ⟨[], true, some 200⟩
      = (⟨[150], false, none⟩, none) := by
  norm_num [check_and_update, monitoring_branch, push_price, keep_last, ratchet,
    reset_monitoring, DROP_THRESHOLD, HISTORY_CAP]

/-- C6 (corrected): the protective order is dispatched only when a
successful balance fetch reports at least `ORDER_SIZE` free; an
insufficient balance leaves the state Monitoring with the ratcheted peak
retained; a successfully placed order resets the peak and returns to
Idle — but not only it: an adapter exception during the monitoring
branch (e.g. the balance fetch raising) also resets the state to Idle
without any order. -/
theorem C6_amended (env : TickEnv) (s : StrategyState) :
    ((check_and_update env s).2 ≠ none →
       ∃ free, env.balance = BalanceResult.ok free ∧ ORDER_SIZE ≤ free) ∧
    (∀ p h0 free, env.fetch = FetchResult.ok p → s.isMonitoring = true →
       s.highestPrice = some h0 → ratchet h0 p ≠ 0 →
       DROP_THRESHOLD ≤ (ratchet h0 p - p) / ratchet h0 p →
       env.balance = BalanceResult.ok free → free < ORDER_SIZE →
       check_and_update env s
         = ({ priceHistory := keep_last HISTORY_CAP (s.priceHistory ++ [p]),
              isMonitoring := true, highestPrice := some (ratchet h0 p) }, none)) ∧
    (∀ p h0 free, env.fetch = FetchResult.ok p → s.isMonitoring = true →
       s.highestPrice = some h0 → ratchet h0 p ≠ 0 →
       DROP_THRESHOLD ≤ (ratchet h0 p - p) / ratchet h0 p →
       env.balance = BalanceResult.ok free → ORDER_SIZE ≤ free →
       env.order = OrderResult.ok →
       check_and_update env s
         = ({ priceHistory := keep_last HISTORY_CAP (s.priceHistory ++ [p]),
              isMonitoring := false, highestPrice := none },
            some (p * (1 - LIMIT_ORDER_OFFSET), ORDER_SIZE))) ∧
    (∀ p h0, env.fetch = FetchResult.ok p → s.isMonitoring = true →
       s.highestPrice = some h0 → ratchet h0 p ≠ 0 →
       DROP_THRESHOLD ≤ (ratchet h0 p - p) / ratchet h0 p →
       env.balance = BalanceResult.err →
       (check_and_update env s).1.isMonitoring = false ∧
       (check_and_update env s).1.highestPrice = none ∧
       (check_and_update env s).2 = none) := by
  refine ⟨?_, ?_, ?_, ?_⟩
  · intro hne
    cases hf : env.fetch with
    | err =>
      rw [check_and_update, hf] at hne
      exact absurd rfl hne
    | ok p =>
      by_cases hm : s.isMonitoring
      · cases ho : s.highestPrice with
        | none =>
          rw [check_and_update, hf] at hne
          dsimp only at hne
          rw [if_pos hm, ho] at hne
          exact absurd rfl hne
        | some h0 =>
          rw [check_and_update, hf] at hne
          dsimp only at hne
          rw [if_pos hm, ho] at hne
          exact monitoring_branch_dispatch env p h0 (push_price p s) hne
      · rw [check_and_update, hf] at hne
        dsimp only at hne
        rw [if_neg hm] at hne
        exact absurd rfl hne
  · intro p h0 free hf hm ho hz hd hb hfree
    simp [check_and_update, hf, hm, ho, monitoring_branch, hz, hd, hb,
      not_le.mpr hfree, push_price]
  · intro p h0 free hf hm ho hz hd hb hfree hord
    simp [check_and_update, hf, hm, ho, monitoring_branch, hz, hd, hb, hfree, hord,
      reset_monitoring, push_price]
  · intro p h0 hf hm ho hz hd hb
    simp [check_and_update, hf, hm, ho, monitoring_branch, hz, hd, hb,
      reset_monitoring, push_price]

/-- C6 witness: a concrete insufficient-balance tick staying in
Monitoring with the peak retained. -/
theorem C6_witness :
    check_and_update ⟨FetchResult.ok 95, BalanceResult.ok 5, OrderResult.ok⟩
        ⟨[], true, some 100⟩
      = ({ priceHistory := keep_last HISTORY_CAP ([] ++ [95]),
           isMonitoring := true, highestPrice := some (ratchet 100 95) }, none) :=
  (C6_amended ⟨FetchResult.ok 95, BalanceResult.ok 5, OrderResult.ok⟩
      ⟨[], true, some 100⟩).2.1 95 100 5 rfl rfl rfl
    (by norm_num [ratchet]) (by norm_num [ratchet, DROP_THRESHOLD]) rfl
    (by norm_num [ORDER_SIZE])

/-- C7: on a monitoring tick with fetched price `p` and previous peak
`h0`, the peak is updated to `p` exactly when `p` strictly exceeds `h0`
(so it never decreases while monitoring persists, and every
still-monitoring outcome carries the ratcheted peak), and when the drop
`(peak - p) / peak` reaches `DROP_THRESHOLD` and a successful balance
fetch reports at least `ORDER_SIZE` free, a limit sell order of size
`ORDER_SIZE` at price `p * (1 - LIMIT_ORDER_OFFSET)` is dispatched. -/
theorem C7 (env : TickEnv) (s : StrategyState) (p h0 : ℚ)
    (hf : env.fetch = FetchResult.ok p) (hm : s.isMonitoring = true)
    (ho : s.highestPrice = some h0) :
    (h0 ≤ ratchet h0 p ∧ ratchet h0 p = if h0 < p then p else h0) ∧
    ((check_and_update env s).1.isMonitoring = true →
       (check_and_update env s).1.highestPrice = some (ratchet h0 p)) ∧
    (∀ free, ratchet h0 p ≠ 0 →
       DROP_THRESHOLD ≤ (ratchet h0 p - p) / ratchet h0 p →
       env.balance = BalanceResult.ok free → ORDER_SIZE ≤ free →
       (check_and_update env s).2
         = some (p * (1 - LIMIT_ORDER_OFFSET), ORDER_SIZE)) := by
  have hcu : (check_and_update env s).1
      = (monitoring_branch env p h0 (push_price p s)).1 := by
    rw [check_and_update, hf]
    dsimp only
    rw [if_pos hm, ho]
  refine ⟨⟨le_ratchet_left h0 p, rfl⟩, ?_, ?_⟩
  · intro hmon
    rcases monitoring_branch_cases env p h0 (push_price p s) with hc | hc
    · rw [hcu, hc] at hmon
      simp [reset_monitoring] at hmon
    · rw [hcu, hc]
  · intro free hz hd hb hfree
    cases hord : env.order <;>
      simp [check_and_update, hf, hm, ho, monitoring_branch, hz, hd, hb, hfree, hord]

/-- C7 witness: a concrete qualifying drop dispatching the limit order. -/
theorem C7_witness :
    (check_and_update ⟨FetchResult.ok 95, BalanceResult.ok 50, OrderResult.ok⟩
        ⟨[], true, some 100⟩).2
      = some ((95 : ℚ) * (1 - LIMIT_ORDER_OFFSET), ORDER_SIZE) :=
  (C7 ⟨FetchResult.ok 95, BalanceResult.ok 50, OrderResult.ok⟩
      ⟨[], true, some 100⟩ 95 100 rfl rfl rfl).2.2 50
    (by norm_num [ratchet]) (by norm_num [ratchet, DROP_THRESHOLD]) rfl
    (by norm_num [ORDER_SIZE])

/-! ## The strategy invariant -/

theorem strategy_inv_step (env : TickEnv) (s : StrategyState) (obs : List ℚ)
    (hInv : StrategyInv s obs) :
    StrategyInv (check_and_update env s).1 (tick_obs env s obs) := by
  obtain ⟨h1, h2⟩ := hInv
  cases hf : env.fetch with
  | err =>
    have ht : check_and_update env s = (s, none) := by
      rw [check_and_update, hf]
    by_cases hm : s.isMonitoring
    · have hobs : tick_obs env s obs = obs := by
        rw [tick_obs, ht, hf]
        dsimp only
        rw [if_pos hm]
      rw [ht, hobs]
      exact ⟨h1, h2⟩
    · have hobs : tick_obs env s obs = [] := by
        rw [tick_obs, ht]
        dsimp only
        rw [if_neg hm]
      rw [ht, hobs]
      exact ⟨h1, fun h hh q hq => absurd hq (List.not_mem_nil q)⟩
  | ok p =>
    by_cases hm : s.isMonitoring
    · -- monitoring: the peak exists by the invariant
      have hsome : ∃ h0, s.highestPrice = some h0 := by
        cases ho : s.highestPrice with
        | none =>
          rw [ho, hm] at h1
          simp at h1
        | some h0 => exact ⟨h0, rfl⟩
      obtain ⟨h0, ho⟩ := hsome
      have ht : check_and_update env s = monitoring_branch env p h0 (push_price p s) := by
        rw [check_and_update, hf]
        dsimp only
        rw [if_pos hm, ho]
      rcases monitoring_branch_cases env p h0 (push_price p s) with hc | hc
      · have hobs : tick_obs env s obs = [] := by
          rw [tick_obs, ht, hc]
          dsimp only [reset_monitoring]
          rw [if_neg (by simp)]
        rw [ht, hobs, hc]
        exact ⟨rfl, fun h hh q hq => absurd hq (List.not_mem_nil q)⟩
      · have hmon : (monitoring_branch env p h0 (push_price p s)).1.isMonitoring = true := by
          rw [hc]
          exact hm
        have hobs : tick_obs env s obs = obs ++ [p] := by
          rw [tick_obs, ht, hf]
          dsimp only
          rw [if_pos hmon, if_pos hm]
        rw [ht, hobs, hc]
        refine ⟨by simp [push_price, hm], ?_⟩
        intro h hh q hq
        have hval : h = ratchet h0 p := (Option.some.inj hh).symm
        subst hval
        rcases List.mem_append.mp hq with hq | hq
        · exact le_trans (h2 h0 ho q hq) (le_ratchet_left h0 p)
        · rw [List.mem_singleton.mp hq]
          exact le_ratchet_right h0 p
    · -- idle: the peak is absent by the invariant
      have hnone : s.highestPrice = none := by
        cases ho : s.highestPrice with
        | none => rfl
        | some x =>
          rw [ho] at h1
          simp [Bool.not_eq_true] at hm
          rw [hm] at h1
          simp at h1
      have ht : check_and_update env s = (idle_branch p (push_price p s), none) := by
        rw [check_and_update, hf]
        dsimp only
        rw [if_neg hm]
      rcases idle_branch_cases p (push_price p s) with hc | hc | hc
      · have hobs : tick_obs env s obs = [] := by
          rw [tick_obs, ht]
          dsimp only
          rw [hc]
          rw [if_neg (by simpa [push_price] using hm)]
        rw [ht, hobs]
        dsimp only
        rw [hc]
        exact ⟨h1, fun h hh q hq => absurd hq (List.not_mem_nil q)⟩
      · have hobs : tick_obs env s obs = [] := by
          rw [tick_obs, ht]
          dsimp only
          rw [hc]
          rw [if_neg (by simp [reset_monitoring])]
        rw [ht, hobs]
        dsimp only
        rw [hc]
        exact ⟨rfl, fun h hh q hq => absurd hq (List.not_mem_nil q)⟩
      · have hobs : tick_obs env s obs = [p] := by
          rw [tick_obs, ht, hf]
          dsimp only
          rw [hc]
          rw [if_pos rfl, if_neg hm]
        rw [ht, hobs]
        dsimp only
        rw [hc]
        refine ⟨rfl, ?_⟩
        intro h hh q hq
        rw [List.mem_singleton.mp hq, (Option.some.inj hh)]

theorem strategy_inv_run (envs : List TickEnv) :
    ∀ acc : StrategyState × List ℚ, StrategyInv acc.1 acc.2 →
    StrategyInv (envs.foldl run_step acc).1 (envs.foldl run_step acc).2 := by
  induction envs with
  | nil =>
    intro acc h
    simpa using h
  | cons e rest ih =>
    intro acc h
    rw [List.foldl_cons]
    exact ih (run_step acc e) (strategy_inv_step e acc.1 acc.2 h)

/-- C8: in every state reachable from initialization through any sequence
of ticks, the peak is present exactly while monitoring, and while
monitoring it dominates every price observed since monitoring was
armed. -/
theorem C8 (envs : List TickEnv) :
    (run_with_obs envs).1.highestPrice.isSome = (run_with_obs envs).1.isMonitoring ∧
    ∀ h, (run_with_obs envs).1.highestPrice = some h →
      ∀ p ∈ (run_with_obs envs).2, p ≤ h :=
  strategy_inv_run envs (strategy_init, [])
    ⟨rfl, fun h hh => absurd hh (by simp [strategy_init])⟩

theorem run_scenario_eval :
    run_with_obs scenario_envs
      = (⟨[1, 1, 1, 1, 1, 1, 1, 1, 1, 6 / 5], true, some (6 / 5)⟩, [6 / 5]) := by
  have e1 : run_step ((⟨[], false, none⟩ : StrategyState), ([] : List ℚ))
      ⟨.ok 1, .err, .err⟩ = (⟨[1], false, none⟩, []) := by
    norm_num [run_step, check_and_update, tick_obs, idle_branch, push_price, keep_last,
      calculate_ma, last_n, MA_PERIODS, HISTORY_CAP]
  have e2 : run_step ((⟨[1], false, none⟩ : StrategyState), ([] : List ℚ))
      ⟨.ok 1, .err, .err⟩ = (⟨[1, 1], false, none⟩, []) := by
    norm_num [run_step, check_and_update, tick_obs, idle_branch, push_price, keep_last,
      calculate_ma, last_n, MA_PERIODS, HISTORY_CAP]
  have e3 : run_step ((⟨[1, 1], false, none⟩ : StrategyState), ([] : List ℚ))
      ⟨.ok 1, .err, .err⟩ = (⟨[1, 1, 1], false, none⟩, []) := by
    norm_num [run_step, check_and_update, tick_obs, idle_branch, push_price, keep_last,
      calculate_ma, last_n, MA_PERIODS, HISTORY_CAP]
  have e4 : run_step ((⟨[1, 1, 1], false, none⟩ : StrategyState), ([] : List ℚ))
      ⟨.ok 1, .err, .err⟩ = (⟨[1, 1, 1, 1], false, none⟩, []) := by
    norm_num [run_step, check_and_update, tick_obs, idle_branch, push_price, keep_last,
      calculate_ma, last_n, MA_PERIODS, HISTORY_CAP]
  have e5 : run_step ((⟨[1, 1, 1, 1], false, none⟩ : StrategyState), ([] : List ℚ))
      ⟨.ok 1, .err, .err⟩ = (⟨[1, 1, 1, 1, 1], false, none⟩, []) := by
    norm_num [run_step, check_and_update, tick_obs, idle_branch, push_price, keep_last,
      calculate_ma, last_n, MA_PERIODS, HISTORY_CAP]
  have e6 : run_step ((⟨[1, 1, 1, 1, 1], false, none⟩ : StrategyState), ([] : List ℚ))
      ⟨.ok 1, .err, .err⟩ = (⟨[1, 1, 1, 1, 1, 1], false, none⟩, []) := by
    norm_num [run_step, check_and_update, tick_obs, idle_branch, push_price, keep_last,
      calculate_ma, last_n, MA_PERIODS, HISTORY_CAP]
  have e7 : run_step ((⟨[1, 1, 1, 1, 1, 1], false, none⟩ : StrategyState), ([] : List ℚ))
      ⟨.ok 1, .err, .err⟩ = (⟨[1, 1, 1, 1, 1, 1, 1], false, none⟩, []) := by
    norm_num [run_step, check_and_update, tick_obs, idle_branch, push_price, keep_last,
      calculate_ma, last_n, MA_PERIODS, HISTORY_CAP]
  have e8 : run_step ((⟨[1, 1, 1, 1, 1, 1, 1], false, none⟩ : StrategyState), ([] : List ℚ))
      ⟨.ok 1, .err, .err⟩ = (⟨[1, 1, 1, 1, 1, 1, 1, 1], false, none⟩, []) := by
    norm_num [run_step, check_and_update, tick_obs, idle_branch, push_price, keep_last,
      calculate_ma, last_n, MA_PERIODS, HISTORY_CAP]
  have e9 : run_step ((⟨[1, 1, 1, 1, 1, 1, 1, 1], false, none⟩ : StrategyState), ([] : List ℚ))
      ⟨.ok 1, .err, .err⟩ = (⟨[1, 1, 1, 1, 1, 1, 1, 1, 1], false, none⟩, []) := by
    norm_num [run_step, check_and_update, tick_obs, idle_branch, push_price, keep_last,
      calculate_ma, last_n, MA_PERIODS, HISTORY_CAP]
  have e10 : run_step ((⟨[1, 1, 1, 1, 1, 1, 1, 1, 1], false, none⟩ : StrategyState),
      ([] : List ℚ)) ⟨.ok (6 / 5), .err, .err⟩
      = (⟨[1, 1, 1, 1, 1, 1, 1, 1, 1, 6 / 5], true, some (6 / 5)⟩, [6 / 5]) := by
    norm_num [run_step, check_and_update, tick_obs, idle_branch, push_price, keep_last,
      calculate_ma, last_n, MA_PERIODS, HISTORY_CAP, PRICE_INCREASE_THRESHOLD]
  rw [run_with_obs, scenario_envs]
  simp only [List.foldl_cons, List.foldl_nil, strategy_init, e1, e2, e3, e4, e5, e6,
    e7, e8, e9, e10]

/-- C8 witness: the invariant applied to the concrete arming run. -/
theorem C8_witness :
    (run_with_obs scenario_envs).1.highestPrice.isSome
      = (run_with_obs scenario_envs).1.isMonitoring ∧
    (6 / 5 : ℚ) ≤ 6 / 5 :=
  ⟨(C8 scenario_envs).1,
   (C8 scenario_envs).2 (6 / 5) (by rw [run_scenario_eval]) (6 / 5)
     (by rw [run_scenario_eval]; simp)⟩

/-! ## Moving-average window lemmas -/

theorem keep_last_length (n : ℕ) (l : List ℚ) :
    (keep_last n l).length = min l.length n := by
  rw [keep_last]
  split_ifs with h
  · rw [List.length_drop]
    omega
  · omega

theorem last_n_keep_last (m n : ℕ) (l : List ℚ) (hmn : m ≤ n) :
    last_n m (keep_last n l) = last_n m l := by
  rw [keep_last]
  split_ifs with hlen
  · rw [last_n, last_n, List.length_drop, List.drop_drop]
    congr 1
    omega
  · rfl

theorem last_n_append (l : List ℚ) (p : ℚ) (k : ℕ) (h : k ≤ l.length) :
    last_n (k + 1) (l ++ [p]) = last_n k l ++ [p] := by
  rw [last_n, last_n]
  have hlen : (l ++ [p]).length - (k + 1) = l.length - k := by
    simp [List.length_append]
  rw [hlen, List.drop_append_of_le_length (by omega)]

theorem last_n_length (k : ℕ) (l : List ℚ) (h : k ≤ l.length) :
    (last_n k l).length = k := by
  rw [last_n, List.length_drop]
  omega

theorem mem_last_n {k : ℕ} {l : List ℚ} {x : ℚ} (h : x ∈ last_n k l) : x ∈ l :=
  List.mem_of_mem_drop h

/-! ## The implicit moving-average claim -/

/-- C10: on an idle tick the price is appended before the moving average
is computed, so the arming check compares the current price against the
average of a window whose most recent element is the current price
itself; arming happens exactly when `(p - ma) / ma` exceeds the
threshold for that window average; and with positive prices this trigger
is strictly harder to satisfy than the same comparison against the
average of only the window's prior prices (the implication holds, and a
concrete input satisfies the prior-average comparison yet does not
arm). -/
theorem C10 (env : TickEnv) (s : StrategyState) (p : ℚ)
    (hf : env.fetch = FetchResult.ok p) (hm : s.isMonitoring = false)
    (hlen : MA_PERIODS - 1 ≤ s.priceHistory.length)
    (hpos : ∀ q ∈ s.priceHistory, 0 < q) (hp : 0 < p) :
    calculate_ma (keep_last HISTORY_CAP (s.priceHistory ++ [p]))
      = some (window_ma_with_current s.priceHistory p) ∧
    (last_n MA_PERIODS (keep_last HISTORY_CAP (s.priceHistory ++ [p]))).getLast?
      = some p ∧
    ((check_and_update env s).1.isMonitoring = true ↔
       PRICE_INCREASE_THRESHOLD <
         (p - window_ma_with_current s.priceHistory p)
           / window_ma_with_current s.priceHistory p) ∧
    (PRICE_INCREASE_THRESHOLD <
         (p - window_ma_with_current s.priceHistory p)
           / window_ma_with_current s.priceHistory p →
       PRICE_INCREASE_THRESHOLD <
         (p - window_ma_prior s.priceHistory) / window_ma_prior s.priceHistory) ∧
    (PRICE_INCREASE_THRESHOLD <
       (11 - window_ma_prior [89 / 9, 89 / 9, 89 / 9, 89 / 9, 89 / 9, 89 / 9, 89 / 9,
          89 / 9, 89 / 9])
         / window_ma_prior [89 / 9, 89 / 9, 89 / 9, 89 / 9, 89 / 9, 89 / 9, 89 / 9,
             89 / 9, 89 / 9] ∧
     ¬ PRICE_INCREASE_THRESHOLD <
       (11 - window_ma_with_current [89 / 9, 89 / 9, 89 / 9, 89 / 9, 89 / 9, 89 / 9,
          89 / 9, 89 / 9, 89 / 9] 11)
         / window_ma_with_current [89 / 9, 89 / 9, 89 / 9, 89 / 9, 89 / 9, 89 / 9,
             89 / 9, 89 / 9, 89 / 9] 11 ∧
     (check_and_update ⟨FetchResult.ok 11, BalanceResult.err, OrderResult.err⟩
        ⟨[89 / 9, 89 / 9, 89 / 9, 89 / 9, 89 / 9, 89 / 9, 89 / 9, 89 / 9, 89 / 9],
         false, none⟩).1.isMonitoring = false) := by
  have hlen9 : 9 ≤ s.priceHistory.length := by
    simpa [MA_PERIODS] using hlen
  have hwin : last_n MA_PERIODS (keep_last HISTORY_CAP (s.priceHistory ++ [p]))
      = last_n (MA_PERIODS - 1) s.priceHistory ++ [p] := by
    show last_n 10 (keep_last 100 (s.priceHistory ++ [p])) = last_n 9 s.priceHistory ++ [p]
    rw [last_n_keep_last 10 100 _ (by norm_num)]
    exact last_n_append s.priceHistory p 9 hlen9
  have hApos : 0 < (last_n (MA_PERIODS - 1) s.priceHistory).sum := by
    apply List.sum_pos
    · intro a ha
      exact hpos a (mem_last_n ha)
    · have hl9 : (last_n (MA_PERIODS - 1) s.priceHistory).length = MA_PERIODS - 1 :=
        last_n_length _ _ hlen
      intro hnil
      rw [hnil] at hl9
      simp [MA_PERIODS] at hl9
  have h10 : ((MA_PERIODS : ℕ) : ℚ) = 10 := by norm_num [MA_PERIODS]
  have hMpos : 0 < window_ma_with_current s.priceHistory p := by
    rw [window_ma_with_current, h10]
    positivity
  have hma : calculate_ma (keep_last HISTORY_CAP (s.priceHistory ++ [p]))
      = some (window_ma_with_current s.priceHistory p) := by
    have hge : MA_PERIODS ≤ (keep_last HISTORY_CAP (s.priceHistory ++ [p])).length := by
      rw [keep_last_length, List.length_append]
      simp only [MA_PERIODS, HISTORY_CAP]
      simp only [List.length_singleton]
      omega
    rw [calculate_ma, if_neg (not_lt.mpr hge), hwin, window_ma_with_current]
    congr 1
    rw [List.sum_append]
    simp
  refine ⟨hma, ?_, ?_, ?_, ?_⟩
  · rw [hwin]
    exact List.getLast?_concat _
  · have hcu : (check_and_update env s).1 = idle_branch p (push_price p s) := by
      rw [check_and_update, hf]
      dsimp only
      rw [if_neg (by simp [hm])]
    rw [hcu, idle_branch]
    have hhist : (push_price p s).priceHistory
        = keep_last HISTORY_CAP (s.priceHistory ++ [p]) := rfl
    rw [hhist, hma]
    dsimp only
    rw [if_neg hMpos.ne']
    by_cases hc : PRICE_INCREASE_THRESHOLD <
        (p - window_ma_with_current s.priceHistory p)
          / window_ma_with_current s.priceHistory p
    · rw [if_pos hc]
      simpa using hc
    · rw [if_neg hc]
      simp only [push_price_isMonitoring, hm]
      simp [hc]
  · intro harm
    have h9 : ((MA_PERIODS : ℕ) : ℚ) - 1 = 9 := by norm_num [MA_PERIODS]
    rw [window_ma_with_current, h10] at harm
    rw [window_ma_prior, h9]
    have hM : (0 : ℚ) < ((last_n (MA_PERIODS - 1) s.priceHistory).sum + p) / 10 := by
      positivity
    rw [lt_div_iff₀ hM] at harm
    have hA9 : (0 : ℚ) < (last_n (MA_PERIODS - 1) s.priceHistory).sum / 9 := by
      positivity
    rw [lt_div_iff₀ hA9]
    rw [PRICE_INCREASE_THRESHOLD] at harm ⊢
    linarith
  · refine ⟨?_, ?_, ?_⟩
    · norm_num [window_ma_prior, last_n, MA_PERIODS, PRICE_INCREASE_THRESHOLD]
    · norm_num [window_ma_with_current, last_n, MA_PERIODS, PRICE_INCREASE_THRESHOLD]
    · norm_num [check_and_update, idle_branch, push_price, keep_last, calculate_ma,
        last_n, MA_PERIODS, HISTORY_CAP, PRICE_INCREASE_THRESHOLD]

/-- C10 witness: the moving average actually computed on a concrete idle
tick is the window average whose most recent element is the current
price. -/
theorem C10_witness :
    calculate_ma (keep_last HISTORY_CAP ([1, 1, 1, 1, 1, 1, 1, 1, 1] ++ [2]))
      = some (window_ma_with_current [1, 1, 1, 1, 1, 1, 1, 1, 1] 2) :=
  (C10 ⟨FetchResult.ok 2, BalanceResult.err, OrderResult.err⟩
     ⟨[1, 1, 1, 1, 1, 1, 1, 1, 1], false, none⟩ 2 rfl rfl
     (by norm_num [MA_PERIODS]) (by norm_num) (by norm_num)).1

end PolsRobot
